import Mathlib

/-!
Verification of the multi-track audio recorder (Obsidian plugin, `src/main.ts`,
second revision of the plugin: the `AudioRecorderPlugin` class using
`RecordingStatus`).  The definitions below are a shallow embedding of the
program: JavaScript numbers that hold audio samples are modelled as `ℚ`,
binary buffers as `List Nat` of byte values, and the browser/host APIs
(media capture, vault storage, audio decoding) as explicit parameters.
-/

namespace AudioRec

/-! ## Byte-level primitives (`DataView.setUint16/setUint32/setInt16`, little-endian) -/

/-- The two bytes written by `DataView.setUint16(pos, v, true)`:
little-endian, value taken mod 2^16 (each byte taken mod 256). -/
def uint16LE (v : Nat) : List Nat := [v % 256, v / 256 % 256]

/-- The four bytes written by `DataView.setUint32(pos, v, true)`:
little-endian, value taken mod 2^32. -/
def uint32LE (v : Nat) : List Nat :=
  [v % 256, v / 256 % 256, v / 65536 % 256, v / 16777216 % 256]

/-- Truncation toward zero of a rational, as JavaScript's ToInt16 conversion
truncates a float before taking it mod 2^16. -/
def ratTrunc (q : ℚ) : Int := if 0 ≤ q then ⌊q⌋ else -⌊-q⌋

/-- The two bytes written by `DataView.setInt16(pos, v, true)` for an integer
value `v`: two's complement mod 2^16, little-endian. -/
def int16LE (v : Int) : List Nat := uint16LE (v % 65536).toNat

/-- Byte at an index of a byte list; positions outside the list read as 0
(the `ArrayBuffer` is zero-initialised and never shrinks). -/
def byteAt : List Nat → Nat → Nat
  | [], _ => 0
  | b :: _, 0 => b
  | _ :: l, n + 1 => byteAt l n

/-- Little-endian 16-bit read at a byte position. -/
def readU16 (l : List Nat) (pos : Nat) : Nat :=
  byteAt l pos + 256 * byteAt l (pos + 1)

/-- Little-endian 32-bit read at a byte position. -/
def readU32 (l : List Nat) (pos : Nat) : Nat :=
  readU16 l pos + 65536 * readU16 l (pos + 2)

/-- Loop emission: `forRange n f = f 0 ++ f 1 ++ ⋯ ++ f (n-1)`, the bytes emitted by a
`for (k = 0; k < n; k++)` loop whose body `f k` writes bytes sequentially. -/
def forRange : Nat → (Nat → List Nat) → List Nat
  | 0, _ => []
  | n + 1, f => forRange n f ++ f n

/-! ## The audio buffer (Web Audio `AudioBuffer`) -/

/-- Web Audio `AudioBuffer`: a sample rate, a frame count `length`, and one
float sample array per channel, each of length `length`
(`getChannelData(i).length === length` per the Web Audio API). -/
structure AudioBuffer where
  sampleRate : Nat
  length : Nat
  channels : List (List ℚ)
  h_len : ∀ c ∈ channels, c.length = length

/-- Accessor `abuffer.numberOfChannels`. -/
def AudioBuffer.numberOfChannels (ab : AudioBuffer) : Nat := ab.channels.length

/-- Accessor `abuffer.getChannelData(i)` (out-of-range channel index reads as an empty
array; the encoder only uses `i < numberOfChannels`). -/
def AudioBuffer.getChannelData (ab : AudioBuffer) (i : Nat) : List ℚ :=
  ab.channels.getD i []

/-! ## The WAV encoder (`bufferToWave`, src/main.ts) -/

/-- Clamp `Math.max(-1, Math.min(1, s))`. -/
def clampSample (s : ℚ) : ℚ := max (-1) (min 1 s)

/-- The integer written for one float sample:
`sample < 0 ? sample * 0x8000 : sample * 0x7FFF`, where `sample` is the
clamped value, truncated toward zero by `setInt16`'s float-to-int
conversion. -/
def quantize (s : ℚ) : Int :=
  let sample := clampSample s
  ratTrunc (if sample < 0 then sample * 32768 else sample * 32767)

/-- The bytes of one interleaved frame: the inner
`for (i = 0; i < numOfChan; i++)` loop of `bufferToWave`, writing
`setInt16(44 + offset*numOfChan*2 + i*2, …, true)` for each channel. -/
def frameBytes (ab : AudioBuffer) (offset : Nat) : List Nat :=
  forRange ab.numberOfChannels fun i =>
    int16LE (quantize ((ab.getChannelData i).getD offset 0))

/-- The 44 header bytes written by the sequence of `setUint32`/`setUint16`
calls at the top of `bufferToWave`, in source order (`length` is the total
buffer size `len * numOfChan * 2 + 44`). -/
def wavHeader (numOfChan sampleRate length : Nat) : List Nat :=
  uint32LE 0x46464952 ++
  uint32LE (length - 8) ++
  uint32LE 0x45564157 ++
  uint32LE 0x20746d66 ++
  uint32LE 16 ++
  uint16LE 1 ++
  uint16LE numOfChan ++
  uint32LE sampleRate ++
  uint32LE (sampleRate * 2 * numOfChan) ++
  uint16LE (numOfChan * 2) ++
  uint16LE 16 ++
  uint32LE 0x61746164 ++
  uint32LE (length - 44)

/-- Encoder `bufferToWave(abuffer, len)`: a zero-initialised buffer of
`len * numOfChan * 2 + 44` bytes; the 44-byte header is written by the
sequence of `setUint32`/`setUint16` calls, then the sample loop runs for
`offset < len && offset < abuffer.length`, filling frames in order; bytes
past the last written frame keep their initial zero value. -/
def bufferToWave (ab : AudioBuffer) (len : Nat) : List Nat :=
  let numOfChan := ab.numberOfChannels
  let length := len * numOfChan * 2 + 44
  wavHeader numOfChan ab.sampleRate length ++
  (forRange (min len ab.length) (frameBytes ab) ++
   List.replicate ((len - min len ab.length) * numOfChan * 2) 0)

/-! ## Basic lemmas about the byte primitives -/

theorem byteAt_append_left : ∀ (l₁ l₂ : List Nat) (n : Nat), n < l₁.length →
    byteAt (l₁ ++ l₂) n = byteAt l₁ n
  | [], _, _, h => by simp at h
  | _ :: _, _, 0, _ => rfl
  | _ :: l, l₂, n + 1, h => byteAt_append_left l l₂ n (by simpa using h)

theorem byteAt_append_add : ∀ (l₁ l₂ : List Nat) (n : Nat),
    byteAt (l₁ ++ l₂) (l₁.length + n) = byteAt l₂ n
  | [], l₂, n => by rw [List.nil_append, List.length_nil, Nat.zero_add]
  | b :: l, l₂, n => by
    have h : (b :: l).length + n = (l.length + n) + 1 := by
      simp [List.length_cons]
      omega
    rw [h, List.cons_append]
    exact byteAt_append_add l l₂ n

theorem byteAt_append_of_length (l₁ l₂ : List Nat) (m n : Nat)
    (h : l₁.length = m) : byteAt (l₁ ++ l₂) (m + n) = byteAt l₂ n := by
  subst h
  exact byteAt_append_add l₁ l₂ n

theorem byteAt_replicate_zero (m n : Nat) : byteAt (List.replicate m 0) n = 0 := by
  induction m generalizing n with
  | zero => cases n <;> rfl
  | succ m ih =>
    cases n with
    | zero => rfl
    | succ n => simpa [List.replicate_succ, byteAt] using ih n

theorem forRange_length (n : Nat) (f : Nat → List Nat) (L : Nat)
    (hf : ∀ k, (f k).length = L) : (forRange n f).length = n * L := by
  induction n with
  | zero => simp [forRange]
  | succ n ih =>
    simp only [forRange, List.length_append, ih, hf]
    ring

theorem forRange_byteAt (n : Nat) (f : Nat → List Nat) (L : Nat)
    (hf : ∀ k, (f k).length = L) (k j : Nat) (hk : k < n) (hj : j < L) :
    byteAt (forRange n f) (k * L + j) = byteAt (f k) j := by
  induction n with
  | zero => omega
  | succ m ih =>
    simp only [forRange]
    rcases Nat.lt_or_ge k m with h | h
    · rw [byteAt_append_left]
      · exact ih h
      · rw [forRange_length m f L hf]
        calc k * L + j < k * L + L := by omega
        _ = (k + 1) * L := by ring
        _ ≤ m * L := Nat.mul_le_mul_right _ (by omega)
    · have hkm : k = m := by omega
      subst hkm
      have hlen : k * L + j = (forRange k f).length + j := by
        rw [forRange_length k f L hf]
      rw [hlen, byteAt_append_add]

theorem frameBytes_length (ab : AudioBuffer) (offset : Nat) :
    (frameBytes ab offset).length = ab.numberOfChannels * 2 :=
  forRange_length _ _ 2 fun _ => rfl

/-! ## Claim theorems about the WAV encoder -/

/-- Claim C1: The output of `bufferToWave` on a buffer with frame count `len`,
sample rate `R` and channel count `C` begins with the 44-byte little-endian
header `RIFF`, total size `dataBytes + 36`, `WAVE`, `fmt ` sub-chunk of size
16 with PCM tag 1, channel count `C`, sample rate `R`, byte rate `R*C*2`,
block align `C*2`, 16 bits per sample, then a `data` sub-chunk whose size
field is `len*C*2`. -/
theorem wav_header_layout (ab : AudioBuffer) (len : Nat) :
    (bufferToWave ab len).take 44 =
      [0x52, 0x49, 0x46, 0x46] ++
      uint32LE (len * ab.numberOfChannels * 2 + 36) ++
      [0x57, 0x41, 0x56, 0x45] ++
      [0x66, 0x6d, 0x74, 0x20] ++
      uint32LE 16 ++
      uint16LE 1 ++
      uint16LE ab.numberOfChannels ++
      uint32LE ab.sampleRate ++
      uint32LE (ab.sampleRate * ab.numberOfChannels * 2) ++
      uint16LE (ab.numberOfChannels * 2) ++
      uint16LE 16 ++
      [0x64, 0x61, 0x74, 0x61] ++
      uint32LE (len * ab.numberOfChannels * 2) := by
  have h8 : len * ab.numberOfChannels * 2 + 44 - 8
      = len * ab.numberOfChannels * 2 + 36 := by omega
  have h44 : len * ab.numberOfChannels * 2 + 44 - 44
      = len * ab.numberOfChannels * 2 := by omega
  have hbr : ab.sampleRate * 2 * ab.numberOfChannels
      = ab.sampleRate * ab.numberOfChannels * 2 := by ring
  simp only [bufferToWave, wavHeader, h8, h44, hbr, uint32LE, uint16LE,
    List.cons_append, List.nil_append]
  rfl

theorem wavHeader_length (numOfChan sampleRate length : Nat) :
    (wavHeader numOfChan sampleRate length).length = 44 := rfl

/-! ## Bounds on the quantized sample value -/

theorem clampSample_mem (s : ℚ) : -1 ≤ clampSample s ∧ clampSample s ≤ 1 :=
  ⟨le_max_left _ _, max_le (by norm_num) (min_le_left _ _)⟩

theorem quantize_bounds (s : ℚ) : -32768 ≤ quantize s ∧ quantize s ≤ 32767 := by
  obtain ⟨hlo, hhi⟩ := clampSample_mem s
  unfold quantize ratTrunc
  set c := clampSample s with hc
  by_cases hneg : c < 0
  · have hx : ¬ (0 ≤ c * 32768) := by nlinarith
    simp only [hneg, if_pos, hx, if_neg, not_false_iff]
    have h1 : -(c * 32768) ≤ (32768 : ℚ) := by nlinarith
    have h2 : (0 : ℚ) ≤ -(c * 32768) := by nlinarith
    constructor
    · have := Int.floor_le_floor (α := ℚ) h1
      norm_num at this
      omega
    · have : (0 : ℤ) ≤ ⌊-(c * 32768)⌋ := Int.floor_nonneg.mpr h2
      omega
  · have hge : (0 : ℚ) ≤ c := le_of_not_lt hneg
    have hx : (0 : ℚ) ≤ c * 32767 := by nlinarith
    simp only [hneg, if_neg, not_false_iff, hx, if_pos]
    constructor
    · have : (0 : ℤ) ≤ ⌊c * 32767⌋ := Int.floor_nonneg.mpr hx
      omega
    · have h1 : c * 32767 ≤ (32767 : ℚ) := by nlinarith
      have := Int.floor_le_floor (α := ℚ) h1
      norm_num at this
      omega

theorem quantize_of_one_le (s : ℚ) (h : 1 ≤ s) : quantize s = 32767 := by
  have hclamp : clampSample s = 1 := by
    unfold clampSample
    rw [min_eq_left h, max_eq_right (by norm_num : (-1 : ℚ) ≤ 1)]
  unfold quantize ratTrunc
  rw [hclamp]
  norm_num

/-! ## Locating bytes inside the encoder output -/

theorem byteAt_bufferToWave_data (ab : AudioBuffer) (len j : Nat) :
    byteAt (bufferToWave ab len) (44 + j) =
      byteAt (forRange (min len ab.length) (frameBytes ab) ++
        List.replicate ((len - min len ab.length) * ab.numberOfChannels * 2) 0) j := by
  simp only [bufferToWave]
  exact byteAt_append_of_length _ _ 44 j (wavHeader_length _ _ _)

theorem byteAt_wav_sample (ab : AudioBuffer) (len offset i b : Nat)
    (h1 : offset < len) (h2 : offset < ab.length) (h3 : i < ab.numberOfChannels)
    (hb : b < 2) :
    byteAt (bufferToWave ab len) (44 + (offset * ab.numberOfChannels * 2 + (i * 2 + b)))
      = byteAt (int16LE (quantize ((ab.getChannelData i).getD offset 0))) b := by
  have hC : ∀ k, (frameBytes ab k).length = ab.numberOfChannels * 2 :=
    frameBytes_length ab
  rw [byteAt_bufferToWave_data]
  have ho : offset < min len ab.length := by omega
  have hij : i * 2 + b < ab.numberOfChannels * 2 := by omega
  have hpos : offset * ab.numberOfChannels * 2 + (i * 2 + b)
      = offset * (ab.numberOfChannels * 2) + (i * 2 + b) := by ring
  rw [hpos]
  rw [byteAt_append_left _ _ _ ?bound]
  case bound =>
    rw [forRange_length _ _ _ hC]
    calc offset * (ab.numberOfChannels * 2) + (i * 2 + b)
        < offset * (ab.numberOfChannels * 2) + ab.numberOfChannels * 2 := by omega
    _ = (offset + 1) * (ab.numberOfChannels * 2) := by ring
    _ ≤ min len ab.length * (ab.numberOfChannels * 2) :=
        Nat.mul_le_mul_right _ (by omega)
  rw [forRange_byteAt (min len ab.length) (frameBytes ab)
    (ab.numberOfChannels * 2) hC offset (i * 2 + b) ho hij]
  unfold frameBytes
  exact forRange_byteAt ab.numberOfChannels
    (fun k => int16LE (quantize ((ab.getChannelData k).getD offset 0)))
    2 (fun _ => rfl) i b h3 hb

/-- Claim C2: Each float sample is clamped to `[-1, 1]` and quantized as
`s*32768` when negative, `s*32767` otherwise, and the result is written as a
signed 16-bit little-endian integer in channel-interleaved order at byte
position `44 + offset*numOfChan*2 + i*2`; the quantized value always lies in
`[-32768, 32767]` (no wrap-around), and any sample whose value reaches or
exceeds `1` (e.g. a mix of two samples of value `0.9`) encodes to exactly
`32767`, the 16-bit representation of `1.0`. -/
theorem wav_sample_encoding (ab : AudioBuffer) (len offset i : Nat)
    (h1 : offset < len) (h2 : offset < ab.length) (h3 : i < ab.numberOfChannels) :
    byteAt (bufferToWave ab len) (44 + offset * ab.numberOfChannels * 2 + i * 2)
      = (quantize ((ab.getChannelData i).getD offset 0) % 65536).toNat % 256 ∧
    byteAt (bufferToWave ab len) (44 + offset * ab.numberOfChannels * 2 + i * 2 + 1)
      = (quantize ((ab.getChannelData i).getD offset 0) % 65536).toNat / 256 % 256 ∧
    quantize ((ab.getChannelData i).getD offset 0)
      = ratTrunc (if clampSample ((ab.getChannelData i).getD offset 0) < 0
          then clampSample ((ab.getChannelData i).getD offset 0) * 32768
          else clampSample ((ab.getChannelData i).getD offset 0) * 32767) ∧
    -32768 ≤ quantize ((ab.getChannelData i).getD offset 0) ∧
    quantize ((ab.getChannelData i).getD offset 0) ≤ 32767 ∧
    (1 ≤ (ab.getChannelData i).getD offset 0 →
      quantize ((ab.getChannelData i).getD offset 0) = 32767) := by
  refine ⟨?_, ?_, rfl, (quantize_bounds _).1, (quantize_bounds _).2,
    quantize_of_one_le _⟩
  · have h := byteAt_wav_sample ab len offset i 0 h1 h2 h3 (by omega)
    rw [show 44 + offset * ab.numberOfChannels * 2 + i * 2
        = 44 + (offset * ab.numberOfChannels * 2 + (i * 2 + 0)) from by omega]
    rw [h]
    rfl
  · have h := byteAt_wav_sample ab len offset i 1 h1 h2 h3 (by omega)
    rw [show 44 + offset * ab.numberOfChannels * 2 + i * 2 + 1
        = 44 + (offset * ab.numberOfChannels * 2 + (i * 2 + 1)) from by omega]
    rw [h]
    rfl

/-- Claim C10: `bufferToWave` returns exactly `44 + len*numOfChan*2` bytes; the
sample loop runs only while the frame index is below both `len` and the
buffer's frame count, so every per-channel array access is within bounds,
and when `len` exceeds the buffer's frame count the trailing bytes of the
data section stay zero. -/
theorem wav_length_and_padding (ab : AudioBuffer) (len : Nat) :
    (bufferToWave ab len).length = 44 + len * ab.numberOfChannels * 2 ∧
    (∀ j, min len ab.length * ab.numberOfChannels * 2 ≤ j →
      byteAt (bufferToWave ab len) (44 + j) = 0) ∧
    (∀ offset, offset < min len ab.length → ∀ i, i < ab.numberOfChannels →
      offset < (ab.getChannelData i).length) := by
  have hC : ∀ k, (frameBytes ab k).length = ab.numberOfChannels * 2 :=
    frameBytes_length ab
  refine ⟨?_, ?_, ?_⟩
  · simp only [bufferToWave]
    rw [List.length_append, List.length_append, wavHeader_length,
      forRange_length _ _ _ hC, List.length_replicate]
    have key : min len ab.length * (ab.numberOfChannels * 2) +
        (len - min len ab.length) * ab.numberOfChannels * 2
        = len * ab.numberOfChannels * 2 := by
      rw [← Nat.mul_assoc, Nat.sub_mul, Nat.sub_mul]
      exact Nat.add_sub_cancel' (Nat.mul_le_mul_right _
        (Nat.mul_le_mul_right _ (Nat.min_le_left _ _)))
    omega
  · intro j hj
    rw [byteAt_bufferToWave_data]
    have hle : (forRange (min len ab.length) (frameBytes ab)).length ≤ j := by
      rw [forRange_length _ _ _ hC, ← Nat.mul_assoc]
      exact hj
    obtain ⟨d, rfl⟩ := Nat.exists_eq_add_of_le hle
    rw [byteAt_append_add, byteAt_replicate_zero]
  · intro offset ho i hi
    have hlt : i < ab.channels.length := hi
    unfold AudioBuffer.getChannelData
    rw [List.getD_eq_getElem ab.channels [] hlt,
      ab.h_len _ (List.getElem_mem hlt)]
    omega

/-- A 1-frame mono buffer whose single sample is the over-unity mix value
`0.9 + 0.9` of two clipping tracks. -/
def demoBuf : AudioBuffer where
  sampleRate := 44100
  length := 1
  channels := [[9 / 10 + 9 / 10]]
  h_len := by
    intro c hc
    rcases List.mem_cons.mp hc with rfl | hc
    · rfl
    · exact absurd hc (List.not_mem_nil c)

theorem wav_sample_encoding_witness :
    1 ≤ (demoBuf.getChannelData 0).getD 0 0 ∧
    byteAt (bufferToWave demoBuf 1)
      (44 + 0 * demoBuf.numberOfChannels * 2 + 0 * 2) = 255 ∧
    byteAt (bufferToWave demoBuf 1)
      (44 + 0 * demoBuf.numberOfChannels * 2 + 0 * 2 + 1) = 127 := by
  have h := wav_sample_encoding demoBuf 1 0 0 (by decide) (by decide) (by decide)
  have hs : (1 : ℚ) ≤ (demoBuf.getChannelData 0).getD 0 0 := by
    unfold AudioBuffer.getChannelData
    rw [show demoBuf.channels = [[9 / 10 + 9 / 10]] from rfl]
    norm_num [List.getD_cons_zero]
  have hq := h.2.2.2.2.2 hs
  refine ⟨hs, ?_, ?_⟩
  · rw [h.1, hq]
    decide
  · rw [h.2.1, hq]
    decide

theorem wav_length_and_padding_witness :
    (bufferToWave demoBuf 2).length = 44 + 2 * demoBuf.numberOfChannels * 2 ∧
    byteAt (bufferToWave demoBuf 2) (44 + 2) = 0 ∧
    0 < (demoBuf.getChannelData 0).length := by
  have h := wav_length_and_padding demoBuf 2
  exact ⟨h.1, h.2.1 2 (by decide), h.2.2 0 (by decide) 0 (by decide)⟩

/-! ## Settings (`AudioRecorderSettings`, src/settings-tab.ts) -/

/-- The plugin settings.  `filePref` models the `filePrefix` setting and
`trackAudioSources` models `Object.values` of the track-index → device-id
record (track `i`, 1-based in the source, is list index `i - 1` here).
The hotkey strings of the interface are omitted: the recording logic never
reads them. -/
structure AudioRecorderSettings where
  recordingFormat : String
  saveFolder : String
  filePref : String
  audioDeviceId : String
  sampleRate : Nat
  bitrate : Nat
  enableMultiTrack : Bool
  maxTracks : Nat
  outputMode : String
  useSourceNamesForTracks : Bool
  trackAudioSources : List String
  debug : Bool

/-- Defaults `DEFAULT_SETTINGS` of src/settings-tab.ts. -/
def DEFAULT_SETTINGS : AudioRecorderSettings where
  recordingFormat := "webm"
  saveFolder := ""
  filePref := "recording"
  audioDeviceId := ""
  sampleRate := 44100
  bitrate := 128000
  enableMultiTrack := false
  maxTracks := 2
  outputMode := "single"
  useSourceNamesForTracks := true
  trackAudioSources := []
  debug := false

/-! ## The recording session state machine (src/main.ts) -/

inductive RecordingStatus where
  | Idle
  | Recording
  | Paused
deriving DecidableEq

/-- A bound capture stream, as returned by `getUserMedia`. -/
structure MediaStream where
  deviceId : String
deriving DecidableEq

/-- A `MediaRecorder` bound to one stream. -/
structure MediaRecorder where
  stream : MediaStream
  mimeType : String
deriving DecidableEq

/-- The mutable plugin fields that the recording logic reads and writes. -/
structure PluginState where
  recorders : List MediaRecorder
  audioChunks : List (List (List Nat))
  recordingStatus : RecordingStatus
deriving DecidableEq

/-- Observable side effects of one command, in order of occurrence.
`saveOutput` marks the `await this.saveRecording()` call made at the end of
`stopRecording`; output generation itself is modelled separately by
`saveRecording` below. -/
inductive Effect where
  | openStream (deviceId : String) (sampleRate : Nat)
  | stopStream
  | pauseStream
  | resumeStream
  | notice (msg : String)
  | saveOutput
deriving DecidableEq

/-- The capture backend: which mime types `MediaRecorder.isTypeSupported`
accepts, which devices `getUserMedia` can bind, and the message of the
error it rejects with otherwise. -/
structure CaptureEnv where
  isTypeSupported : String → Bool
  openOk : String → Bool
  openErrorMessage : String

/-- Mime string `audio/<recordingFormat>;codecs=opus` as built by the source. -/
def mimeTypeOf (s : AudioRecorderSettings) : String :=
  "audio/" ++ s.recordingFormat ++ ";codecs=opus"

/-- The message of the error thrown by `startRecording` on an unsupported
mime type, as shown by the catch-all notice. -/
def unsupportedFormatMsg (s : AudioRecorderSettings) : String :=
  "Error starting recording: The format " ++ mimeTypeOf s ++
  " is not supported in this browser."

/-- The device ids `getAudioStreams` requests: one per configured track in
multi-track mode, otherwise the single configured default device. -/
def configuredSources (s : AudioRecorderSettings) : List String :=
  if s.enableMultiTrack then s.trackAudioSources else [s.audioDeviceId]

/-- Stream opening `getAudioStreams`: `Promise.all` over one `getUserMedia` request per
configured source; fails (rejects) when any bind fails. -/
def getAudioStreams (env : CaptureEnv) (s : AudioRecorderSettings) :
    Option (List MediaStream) :=
  if (configuredSources s).all env.openOk
  then some ((configuredSources s).map MediaStream.mk)
  else none

/-- Command `startRecording`: pre-flight mime-type check (throwing before any stream
is requested), then stream opening, recorder allocation, chunk-buffer reset
and the transition to `Recording`; every error is caught and surfaced as a
notice, leaving the state untouched. -/
def startRecording (env : CaptureEnv) (s : AudioRecorderSettings)
    (st : PluginState) : PluginState × List Effect :=
  if env.isTypeSupported (mimeTypeOf s) then
    let opens := (configuredSources s).map fun d => Effect.openStream d s.sampleRate
    match getAudioStreams env s with
    | none => (st, opens ++ [.notice ("Error starting recording: " ++ env.openErrorMessage)])
    | some streams =>
      ({ recorders := streams.map fun m => ⟨m, mimeTypeOf s⟩,
         audioChunks := streams.map fun _ => [],
         recordingStatus := .Recording },
       opens ++ [.notice "Recording started"])
  else
    (st, [.notice (unsupportedFormatMsg s)])

/-- Command `stopRecording`: a joined wait on every recorder's stop, transition to
`Idle`, notice, then `saveRecording()`. -/
def stopRecording (st : PluginState) : PluginState × List Effect :=
  ({ st with recordingStatus := .Idle },
   st.recorders.map (fun _ => Effect.stopStream) ++
     [.notice "Recording stopped", .saveOutput])

/-- Command `toggleRecording`: start when `Idle`, stop otherwise. -/
def toggleRecording (env : CaptureEnv) (s : AudioRecorderSettings)
    (st : PluginState) : PluginState × List Effect :=
  if st.recordingStatus = .Idle then startRecording env s st else stopRecording st

/-- Command `togglePauseResume`: `Recording → Paused`, `Paused → Recording`, and a
notice-only no-op from `Idle`. -/
def togglePauseResume (st : PluginState) : PluginState × List Effect :=
  if st.recordingStatus = .Recording then
    ({ st with recordingStatus := .Paused },
     st.recorders.map (fun _ => Effect.pauseStream) ++ [.notice "Recording paused"])
  else if st.recordingStatus = .Paused then
    ({ st with recordingStatus := .Recording },
     st.recorders.map (fun _ => Effect.resumeStream) ++ [.notice "Recording resumed"])
  else
    (st, [.notice "No active recording to pause or resume"])

/-- Predicate that is `true` exactly on stream-opening effects. -/
def Effect.isOpen : Effect → Bool
  | .openStream _ _ => true
  | _ => false

/-! ## Claim theorems about the state machine -/

/-- Claim C4: `toggleRecording` is a two-way switch: from `Idle` (and with the
mime type supported and every configured device bindable) it moves to
`Recording` and opens exactly one capture stream per configured track; from
`Recording` or `Paused` it always moves to `Idle`, triggers output
generation, and never opens a stream, so a second toggle during an active
session is interpreted as Stop and never starts a concurrent session. -/
theorem toggleRecording_two_way (env : CaptureEnv) (s : AudioRecorderSettings)
    (st : PluginState) :
    (st.recordingStatus = .Idle →
      env.isTypeSupported (mimeTypeOf s) = true →
      (configuredSources s).all env.openOk = true →
      (toggleRecording env s st).1.recordingStatus = .Recording ∧
      (toggleRecording env s st).1.recorders.length = (configuredSources s).length ∧
      ((toggleRecording env s st).2.filter Effect.isOpen).length
        = (configuredSources s).length) ∧
    (st.recordingStatus ≠ .Idle →
      (toggleRecording env s st).1.recordingStatus = .Idle ∧
      Effect.saveOutput ∈ (toggleRecording env s st).2 ∧
      ∀ d r, Effect.openStream d r ∉ (toggleRecording env s st).2) := by
  constructor
  · intro hidle hsup hopen
    have hres : toggleRecording env s st =
        ({ recorders := ((configuredSources s).map MediaStream.mk).map
             (fun m => ⟨m, mimeTypeOf s⟩),
           audioChunks := ((configuredSources s).map MediaStream.mk).map
             (fun _ => []),
           recordingStatus := .Recording },
         (configuredSources s).map (fun d => Effect.openStream d s.sampleRate)
           ++ [.notice "Recording started"]) := by
      simp [toggleRecording, hidle, startRecording, hsup, getAudioStreams, hopen]
    rw [hres]
    have hfilter : ((configuredSources s).map
        (fun d => Effect.openStream d s.sampleRate)).filter Effect.isOpen
        = (configuredSources s).map (fun d => Effect.openStream d s.sampleRate) := by
      rw [List.filter_eq_self]
      intro e he
      obtain ⟨d, -, rfl⟩ := List.mem_map.mp he
      rfl
    refine ⟨rfl, by simp, ?_⟩
    rw [List.filter_append, hfilter]
    simp [Effect.isOpen]
  · intro hne
    have hres : toggleRecording env s st =
        ({ st with recordingStatus := .Idle },
         st.recorders.map (fun _ => Effect.stopStream) ++
           [.notice "Recording stopped", .saveOutput]) := by
      simp [toggleRecording, hne, stopRecording]
    rw [hres]
    refine ⟨rfl, by simp, ?_⟩
    intro d r h
    rcases List.mem_append.mp h with h | h
    · obtain ⟨-, -, h⟩ := List.mem_map.mp h
      exact Effect.noConfusion h
    · simp at h

/-- Claim C5: When the configured mime type is not supported, `toggleRecording`
from `Idle` only emits the `UnsupportedFormat` error notice: the state is
returned unchanged (no recorders allocated, still `Idle`) and no capture
stream is ever opened, the check running before any `getUserMedia` call. -/
theorem unsupported_format_preflight (env : CaptureEnv)
    (s : AudioRecorderSettings) (st : PluginState)
    (hidle : st.recordingStatus = .Idle)
    (hsup : env.isTypeSupported (mimeTypeOf s) = false) :
    toggleRecording env s st = (st, [.notice (unsupportedFormatMsg s)]) ∧
    ∀ d r, Effect.openStream d r ∉ (toggleRecording env s st).2 := by
  have h : toggleRecording env s st = (st, [.notice (unsupportedFormatMsg s)]) := by
    simp [toggleRecording, hidle, startRecording, hsup]
  refine ⟨h, ?_⟩
  intro d r hmem
  rw [h] at hmem
  simp at hmem

/-- Claim C6: `togglePauseResume` moves `Recording` to `Paused` and `Paused`
back to `Recording`; from `Idle` it is a no-op that only emits a
user-visible notice and leaves the state exactly as it was (still `Idle`). -/
theorem togglePauseResume_transitions (st : PluginState) :
    (st.recordingStatus = .Recording →
      (togglePauseResume st).1.recordingStatus = .Paused) ∧
    (st.recordingStatus = .Paused →
      (togglePauseResume st).1.recordingStatus = .Recording) ∧
    (st.recordingStatus = .Idle →
      togglePauseResume st
        = (st, [.notice "No active recording to pause or resume"])) := by
  refine ⟨?_, ?_, ?_⟩ <;> intro h <;> simp [togglePauseResume, h]

/-! ## Witness states and environments -/

/-- A capture backend that supports every format and binds every device. -/
def envAllOk : CaptureEnv := ⟨fun _ => true, fun _ => true, ""⟩

/-- A capture backend that supports no format at all. -/
def envNoFormat : CaptureEnv := ⟨fun _ => false, fun _ => true, ""⟩

def idleState : PluginState := ⟨[], [], .Idle⟩

def recordingState : PluginState :=
  ⟨[⟨⟨""⟩, "audio/webm;codecs=opus"⟩], [[]], .Recording⟩

def pausedState : PluginState :=
  ⟨[⟨⟨""⟩, "audio/webm;codecs=opus"⟩], [[]], .Paused⟩

theorem toggleRecording_two_way_witness :
    (toggleRecording envAllOk DEFAULT_SETTINGS idleState).1.recordingStatus
      = .Recording ∧
    (toggleRecording envAllOk DEFAULT_SETTINGS recordingState).1.recordingStatus
      = .Idle ∧
    Effect.saveOutput ∈ (toggleRecording envAllOk DEFAULT_SETTINGS recordingState).2 :=
  ⟨((toggleRecording_two_way envAllOk DEFAULT_SETTINGS idleState).1 rfl rfl rfl).1,
   ((toggleRecording_two_way envAllOk DEFAULT_SETTINGS recordingState).2
     (by decide)).1,
   ((toggleRecording_two_way envAllOk DEFAULT_SETTINGS recordingState).2
     (by decide)).2.1⟩

theorem unsupported_format_preflight_witness :
    toggleRecording envNoFormat DEFAULT_SETTINGS idleState
      = (idleState, [.notice (unsupportedFormatMsg DEFAULT_SETTINGS)]) :=
  (unsupported_format_preflight envNoFormat DEFAULT_SETTINGS idleState rfl rfl).1

theorem togglePauseResume_transitions_witness :
    (togglePauseResume recordingState).1.recordingStatus = .Paused ∧
    (togglePauseResume pausedState).1.recordingStatus = .Recording ∧
    togglePauseResume idleState
      = (idleState, [.notice "No active recording to pause or resume"]) :=
  ⟨(togglePauseResume_transitions recordingState).1 rfl,
   (togglePauseResume_transitions pausedState).2.1 rfl,
   (togglePauseResume_transitions idleState).2.2 rfl⟩

/-! ## Chunk arrival (`recorder.ondataavailable`, src/main.ts) -/

/-- One `dataavailable` event on recorder `index`:
`if (event.data.size > 0) this.audioChunks[index].push(event.data)`.
An out-of-range index leaves the buffers unchanged (`List.set` past the end
is the identity). -/
def dataAvailable (audioChunks : List (List (List Nat))) (index : Nat)
    (data : List Nat) : List (List (List Nat)) :=
  if 0 < data.length
  then audioChunks.set index (audioChunks.getD index [] ++ [data])
  else audioChunks

/-- Deliver a sequence of `dataavailable` events (recorder index, chunk
payload) in arrival order. -/
def processEvents (audioChunks : List (List (List Nat)))
    (events : List (Nat × List Nat)) : List (List (List Nat)) :=
  events.foldl (fun acc e => dataAvailable acc e.1 e.2) audioChunks

theorem dataAvailable_length (st : List (List (List Nat))) (index : Nat)
    (data : List Nat) : (dataAvailable st index data).length = st.length := by
  unfold dataAvailable
  split <;> simp

theorem getD_set_self (l : List (List (List Nat))) (i : Nat) (v : List (List Nat))
    (hi : i < l.length) : (l.set i v).getD i [] = v := by
  rw [List.getD_eq_getElem?_getD, List.getElem?_set_self hi]
  rfl

theorem getD_set_ne (l : List (List (List Nat))) (i j : Nat) (v : List (List Nat))
    (h : i ≠ j) : (l.set i v).getD j [] = l.getD j [] := by
  rw [List.getD_eq_getElem?_getD, List.getElem?_set_ne h,
    ← List.getD_eq_getElem?_getD]

theorem processEvents_getD (events : List (Nat × List Nat))
    (st : List (List (List Nat))) (i : Nat) (hi : i < st.length) :
    (processEvents st events).getD i []
      = st.getD i [] ++
        ((events.filter fun e => e.1 == i && decide (0 < e.2.length)).map
          Prod.snd) := by
  induction events generalizing st with
  | nil => simp [processEvents]
  | cons e rest ih =>
    have hstep : processEvents st (e :: rest)
        = processEvents (dataAvailable st e.1 e.2) rest := rfl
    rw [hstep, ih (dataAvailable st e.1 e.2)
      (by rw [dataAvailable_length]; exact hi)]
    by_cases hsz : 0 < e.2.length
    · by_cases hidx : e.1 = i
      · subst hidx
        rw [show dataAvailable st e.1 e.2
            = st.set e.1 (st.getD e.1 [] ++ [e.2]) from by
          simp [dataAvailable, hsz]]
        rw [getD_set_self st e.1 _ hi]
        simp [List.filter_cons, hsz]
      · rw [show dataAvailable st e.1 e.2
            = st.set e.1 (st.getD e.1 [] ++ [e.2]) from by
          simp [dataAvailable, hsz]]
        rw [getD_set_ne st e.1 i _ hidx]
        simp [List.filter_cons, hidx]
    · rw [show dataAvailable st e.1 e.2 = st from by simp [dataAvailable, hsz]]
      simp [List.filter_cons, hsz]

/-- Claim C9: Starting from the freshly reset per-track buffers, after any
sequence of `dataavailable` events each track's buffer is exactly the
subsequence of that track's arrived chunks with positive size, in arrival
order; and no event sequence ever removes or reorders what a buffer already
holds: the old contents stay as an unchanged initial segment. -/
theorem chunk_accumulation (n : Nat) (events : List (Nat × List Nat)) (i : Nat)
    (hi : i < n) :
    (processEvents (List.replicate n []) events).getD i []
      = ((events.filter fun e => e.1 == i && decide (0 < e.2.length)).map
          Prod.snd) ∧
    ∀ st : List (List (List Nat)), ∃ tail,
      (processEvents st events).getD i [] = st.getD i [] ++ tail := by
  constructor
  · rw [processEvents_getD events (List.replicate n []) i (by simpa using hi)]
    simp
  · intro st
    by_cases hlen : i < st.length
    · exact ⟨_, processEvents_getD events st i hlen⟩
    · refine ⟨(processEvents st events).getD i [], ?_⟩
      rw [List.getD_eq_default st [] (by omega : st.length ≤ i)]
      rfl

theorem chunk_accumulation_witness :
    (processEvents (List.replicate 2 []) [(0, [5]), (1, []), (0, [7]), (1, [9])]).getD 0 []
      = [[5], [7]] ∧
    ∃ tail,
      (processEvents [[[1]], []] [(0, [5]), (1, []), (0, [7]), (1, [9])]).getD 0 []
        = [[1]] ++ tail := by
  have h := chunk_accumulation 2 [(0, [5]), (1, []), (0, [7]), (1, [9])] 0 (by decide)
  refine ⟨?_, ?_⟩
  · rw [h.1]
    decide
  · have h2 := h.2 [[[1]], []]
    simpa using h2

/-! ## The output router (`saveAudioFile`, src/main.ts)

File names are `String`s; the JavaScript string operations used by the
router (`split('.')`, `join('.')`, `replace(...)`) are implemented below on
the underlying character lists so that they evaluate inside proofs. -/

/-- The characters replaced by `-` in file names:
`fileName.replace(/[\\\\/:*?"<>|]/g, '-')` (the doubled backslash escapes in
the regex character class denote a single backslash). -/
def illegalChars : List Char := ['\\', '/', ':', '*', '?', '"', '<', '>', '|']

def sanitizeFileName (s : String) : String :=
  ⟨s.data.map fun c => if c ∈ illegalChars then '-' else c⟩

/-- JavaScript `String.prototype.split(sep)` for a single-character
separator: `"a.b" → ["a","b"]`, `"abc" → ["abc"]`, `"" → [""]`. -/
def jsSplitChars (sep : Char) : List Char → List (List Char)
  | [] => [[]]
  | c :: rest =>
    match jsSplitChars sep rest with
    | [] => [[]]
    | w :: ws => if c = sep then [] :: w :: ws else (c :: w) :: ws

/-- Split `fileName.split('.')`. -/
def splitDots (s : String) : List String :=
  (jsSplitChars '.' s.data).map fun w => ⟨w⟩

/-- One iteration of the collision loop's renaming:
`parts = name.split('.'); ext = parts.pop(); name = parts.join('.')`,
then `` `${name}_${counter}.${ext}` ``. -/
def renameStep (sanitizedFileName : String) (counter : Nat) : String :=
  let parts := splitDots sanitizedFileName
  let ext := parts.getLastD ""
  let name := String.intercalate "." parts.dropLast
  name ++ "_" ++ Nat.repr counter ++ "." ++ ext

/-- The `while (await this.app.vault.adapter.exists(filePath))` loop of
`saveAudioFile`: starting at `counter = 1`, while the candidate path exists
rename and re-probe.  `existsF` is the vault adapter's existence probe and
`norm` Obsidian's `normalizePath`, both external collaborators; `fuel`
bounds the iterations so the function is total (the source loop runs
unboundedly until a free path is found). -/
def findFreePath (existsF : String → Bool) (norm : String → String)
    (saveFolder : String) :
    Nat → Nat → String → String → Option String
  | 0, _, _, _ => none
  | fuel + 1, counter, sanitizedFileName, filePath =>
    if existsF filePath then
      let s' := renameStep sanitizedFileName counter
      findFreePath existsF norm saveFolder fuel (counter + 1) s'
        (norm (saveFolder ++ "/" ++ s'))
    else some filePath

/-- Persistence `saveAudioFile(audioBlob, fileName)`: empty blobs are skipped (no write,
`null` return); otherwise the sanitized name is probed and renamed until a
free path is found, and the returned path is the one `createBinary` then
writes. -/
def saveAudioFile (existsF : String → Bool) (norm : String → String)
    (saveFolder : String) (audioBlob : List Nat) (fileName : String)
    (fuel : Nat) : Option String :=
  if audioBlob.length = 0 then none
  else
    let sanitizedFileName := sanitizeFileName fileName
    findFreePath existsF norm saveFolder fuel 1 sanitizedFileName
      (norm (saveFolder ++ "/" ++ sanitizedFileName))

theorem findFreePath_free (existsF : String → Bool) (norm : String → String)
    (saveFolder : String) : ∀ (fuel counter : Nat) (name path result : String),
    findFreePath existsF norm saveFolder fuel counter name path = some result →
    existsF result = false := by
  intro fuel
  induction fuel with
  | zero =>
    intro c n p r h
    simp [findFreePath] at h
  | succ fuel ih =>
    intro c n p r h
    unfold findFreePath at h
    by_cases hex : existsF p
    · rw [if_pos hex] at h
      exact ih _ _ _ _ h
    · rw [if_neg hex] at h
      cases h
      simpa using hex

/-- A vault in which only `f/rec-X.wav` exists. -/
def existsBaseOnly : String → Bool := fun p => p == "f/rec-X.wav"

/-- A vault in which `f/rec-X.wav` and `f/rec-X_1.wav` exist. -/
def existsBaseAndFirst : String → Bool :=
  fun p => p == "f/rec-X.wav" || p == "f/rec-X_1.wav"

/-- Claim C3 counterexample: With `rec-X.wav` and `rec-X_1.wav` both existing
(save folder `f`, identity path normalization, a 1-byte blob), the router's
chosen name for `rec-X.wav` is `rec-X_1_2.wav`, not the `rec-X_2.wav` the
claim requires. -/
theorem saveAudioFile_collision_counterexample :
    saveAudioFile existsBaseAndFirst id "f" [1] "rec-X.wav" 5
      = some "f/rec-X_1_2.wav" ∧
    saveAudioFile existsBaseAndFirst id "f" [1] "rec-X.wav" 5
      ≠ some "f/rec-X_2.wav" := by
  decide

/-- Claim C3 amended: When the destination path exists the router appends
`_{n}` immediately before the extension of the *current candidate name* and
increments `n` until a free path is found — so the retry names accumulate
suffixes: for an existing `rec-X.wav` the next chosen name is `rec-X_1.wav`,
and if that also exists the next chosen name is `rec-X_1_2.wav`; whenever
the loop returns a path, that path does not exist (it is free). -/
theorem saveAudioFile_collision_amended :
    (∀ (existsF : String → Bool) (norm : String → String) (saveFolder : String)
      (fuel counter : Nat) (name path result : String),
      findFreePath existsF norm saveFolder fuel counter name path = some result →
      existsF result = false) ∧
    saveAudioFile existsBaseOnly id "f" [1] "rec-X.wav" 5
      = some "f/rec-X_1.wav" ∧
    saveAudioFile existsBaseAndFirst id "f" [1] "rec-X.wav" 5
      = some "f/rec-X_1_2.wav" :=
  ⟨findFreePath_free, by decide, by decide⟩

theorem saveAudioFile_collision_amended_witness :
    findFreePath existsBaseAndFirst id "f" 5 1 "rec-X.wav" "f/rec-X.wav"
      = some "f/rec-X_1_2.wav" ∧
    existsBaseAndFirst "f/rec-X_1_2.wav" = false :=
  ⟨by decide,
   saveAudioFile_collision_amended.1 existsBaseAndFirst id "f" 5 1
     "rec-X.wav" "f/rec-X.wav" "f/rec-X_1_2.wav" (by decide)⟩

/-! ## The audio mixer

The single-file bounce of `mergeAudioTracks` renders all decoded tracks
through an `OfflineAudioContext(2, …)` with every source connected to the
destination at time 0.  That summation is performed by the platform audio
engine, not by repository code, so it is modelled from the spec (§4.3). -/

/-- Modelled from the spec: a `DecodedTrack`, the per-channel float sample
arrays the external decode capability returns for one track's payload;
every channel holds `sampleCount` samples. -/
structure DecodedTrack where
  sampleCount : Nat
  channels : List (List ℚ)
  h_len : ∀ c ∈ channels, c.length = sampleCount

def DecodedTrack.channelCount (t : DecodedTrack) : Nat := t.channels.length

/-- Modelled from the spec: the contribution of one track to output channel
`c` at sample `n`: `track.channel(c % track.channelCount)[n]` if `n` is
within that track's length, else 0. -/
def DecodedTrack.sample (t : DecodedTrack) (c n : Nat) : ℚ :=
  (t.channels.getD (c % t.channelCount) []).getD n 0

/-- Modelled from the spec: `targetLength = max(sampleCount_i)` across
tracks. -/
def targetLength (tracks : List DecodedTrack) : Nat :=
  (tracks.map DecodedTrack.sampleCount).foldr max 0

/-- Modelled from the spec: output channel `c`, sample `n` = the sum over
tracks of their contributions, without normalization, hard-clamped to
`[-1, 1]`. -/
def mixSample (tracks : List DecodedTrack) (c n : Nat) : ℚ :=
  clampSample ((tracks.map fun t => DecodedTrack.sample t c n).sum)

/-- Modelled from the spec: the 2-channel mixed signal of length
`targetLength` rendered by the offline bounce. -/
def mixTracks (tracks : List DecodedTrack) : List (List ℚ) :=
  [(List.range (targetLength tracks)).map (mixSample tracks 0),
   (List.range (targetLength tracks)).map (mixSample tracks 1)]

theorem le_foldr_max : ∀ (l : List Nat) (x : Nat), x ∈ l → x ≤ l.foldr max 0
  | a :: rest, x, h => by
    rcases List.mem_cons.mp h with rfl | h
    · exact Nat.le_max_left _ _
    · exact Nat.le_trans (le_foldr_max rest x h) (Nat.le_max_right _ _)

theorem foldr_max_mem : ∀ (l : List Nat), l ≠ [] → l.foldr max 0 ∈ l
  | [a], _ => by simp
  | a :: b :: rest, _ => by
    rcases Nat.le_total a ((b :: rest).foldr max 0) with h | h
    · rw [List.foldr_cons, Nat.max_eq_right h]
      exact List.mem_cons_of_mem _ (foldr_max_mem (b :: rest) (by simp))
    · rw [List.foldr_cons, Nat.max_eq_left h]
      exact List.mem_cons_self _ _

theorem clampSample_of_mem (x : ℚ) (hlo : -1 ≤ x) (hhi : x ≤ 1) :
    clampSample x = x := by
  unfold clampSample
  rw [min_eq_right hhi, max_eq_right hlo]

theorem sample_eq_zero_of_le (t : DecodedTrack) (c n : Nat)
    (hn : t.sampleCount ≤ n) : DecodedTrack.sample t c n = 0 := by
  unfold DecodedTrack.sample
  have hch : (t.channels.getD (c % t.channelCount) []).length ≤ n := by
    by_cases hc : c % t.channelCount < t.channels.length
    · rw [List.getD_eq_getElem _ _ hc, t.h_len _ (List.getElem_mem hc)]
      exact hn
    · rw [List.getD_eq_default _ _ (by omega)]
      simp
  exact List.getD_eq_default _ _ hch

/-- Claim C7: Single-file mixing aligns every track to
`targetLength = max(sampleCount_i)`: both output channels have exactly that
length, no track exceeds it (the longest is never truncated) and some track
attains it; a track contributes 0 at indices at or beyond its own length;
and for two tracks with the first no longer than the second, the mix beyond
the first track's length equals the second track's samples alone (whenever
those samples are in the clamp range `[-1, 1]`). -/
theorem mixer_duration_alignment (tracks : List DecodedTrack)
    (h : tracks ≠ []) :
    (∀ ch ∈ mixTracks tracks, ch.length = targetLength tracks) ∧
    (∀ t ∈ tracks, DecodedTrack.sampleCount t ≤ targetLength tracks) ∧
    (∃ t ∈ tracks, DecodedTrack.sampleCount t = targetLength tracks) ∧
    (∀ t ∈ tracks, ∀ c n, DecodedTrack.sampleCount t ≤ n →
      DecodedTrack.sample t c n = 0) ∧
    (∀ t₁ t₂ : DecodedTrack, tracks = [t₁, t₂] →
      ∀ c n, DecodedTrack.sampleCount t₁ ≤ n →
      -1 ≤ DecodedTrack.sample t₂ c n → DecodedTrack.sample t₂ c n ≤ 1 →
      mixSample tracks c n = DecodedTrack.sample t₂ c n) := by
  refine ⟨?_, ?_, ?_, ?_, ?_⟩
  · intro ch hch
    rcases List.mem_cons.mp hch with rfl | hch
    · simp
    · rcases List.mem_cons.mp hch with rfl | hch
      · simp
      · exact absurd hch (List.not_mem_nil ch)
  · intro t ht
    exact le_foldr_max _ _ (List.mem_map_of_mem DecodedTrack.sampleCount ht)
  · have hmem := foldr_max_mem (tracks.map DecodedTrack.sampleCount)
      (by simpa using h)
    obtain ⟨t, ht, hval⟩ := List.mem_map.mp hmem
    exact ⟨t, ht, hval⟩
  · intro t _ c n hn
    exact sample_eq_zero_of_le t c n hn
  · intro t₁ t₂ htr c n hn hlo hhi
    subst htr
    unfold mixSample
    rw [show ([t₁, t₂].map fun t => DecodedTrack.sample t c n).sum
        = DecodedTrack.sample t₁ c n + (DecodedTrack.sample t₂ c n + 0) from rfl]
    rw [sample_eq_zero_of_le t₁ c n hn]
    rw [show (0 : ℚ) + (DecodedTrack.sample t₂ c n + 0)
        = DecodedTrack.sample t₂ c n from by ring]
    exact clampSample_of_mem _ hlo hhi

/-- A decoded track of 100 constant samples `1/2` on each of 2 channels. -/
def shortTrack : DecodedTrack where
  sampleCount := 100
  channels := [List.replicate 100 (1/2), List.replicate 100 (1/2)]
  h_len := by
    intro c hc
    rcases List.mem_cons.mp hc with rfl | hc
    · rw [List.length_replicate]
    · rcases List.mem_cons.mp hc with rfl | hc
      · rw [List.length_replicate]
      · exact absurd hc (List.not_mem_nil c)

/-- A decoded track of 250 constant samples `1/2` on each of 2 channels. -/
def longTrack : DecodedTrack where
  sampleCount := 250
  channels := [List.replicate 250 (1/2), List.replicate 250 (1/2)]
  h_len := by
    intro c hc
    rcases List.mem_cons.mp hc with rfl | hc
    · rw [List.length_replicate]
    · rcases List.mem_cons.mp hc with rfl | hc
      · rw [List.length_replicate]
      · exact absurd hc (List.not_mem_nil c)

theorem mixer_duration_alignment_witness :
    targetLength [shortTrack, longTrack] = 250 ∧
    (∀ ch ∈ mixTracks [shortTrack, longTrack], ch.length = 250) ∧
    mixSample [shortTrack, longTrack] 0 150
      = DecodedTrack.sample longTrack 0 150 := by
  have h := mixer_duration_alignment [shortTrack, longTrack] (by simp)
  have htl : targetLength [shortTrack, longTrack] = 250 := by decide
  have hsamp : DecodedTrack.sample longTrack 0 150 = 1 / 2 := by
    unfold DecodedTrack.sample DecodedTrack.channelCount
    rw [show longTrack.channels
        = [List.replicate 250 (1 / 2), List.replicate 250 (1 / 2)] from rfl]
    norm_num [List.getD_cons_zero, List.getD_eq_getElem?_getD,
      List.getElem?_replicate]
  refine ⟨htl, ?_, ?_⟩
  · intro ch hch
    rw [h.1 ch hch, htl]
  · refine h.2.2.2.2 shortTrack longTrack rfl 0 150 (by decide) ?_ ?_ <;>
      rw [hsamp] <;> norm_num


/-! ## Merging and saving (`mergeAudioTracks` / `saveRecording`, src/main.ts) -/

/-- The rendered output of the offline bounce, as the `AudioBuffer` handed
to `bufferToWave` (sample rate of the rendering context, one channel pair
from the spec-modelled mix). -/
def renderMix (rate : Nat) (tracks : List DecodedTrack) : AudioBuffer where
  sampleRate := rate
  length := targetLength tracks
  channels := mixTracks tracks
  h_len := by
    intro c hc
    rcases List.mem_cons.mp hc with rfl | hc
    · rw [List.length_map, List.length_range]
    · rcases List.mem_cons.mp hc with rfl | hc
      · rw [List.length_map, List.length_range]
      · exact absurd hc (List.not_mem_nil c)

/-- Mixer entry `mergeAudioTracks()`: each track's chunks become one blob (`null` for a
track with no chunks) and are decoded; tracks that produced `null` are
filtered out; when no track had data the method throws
`'No audio data recorded'`; otherwise the valid buffers are bounced offline
and encoded by `bufferToWave(renderedBuffer, renderedBuffer.length)`.
`decode` is the external `decodeAudioData` capability and `rate` the
`AudioContext` sample rate. -/
def mergeAudioTracks (decode : List Nat → DecodedTrack) (rate : Nat)
    (audioChunks : List (List (List Nat))) : Except String (List Nat) :=
  let buffers := audioChunks.map fun chunks =>
    if chunks.isEmpty then none else some (decode chunks.flatten)
  let validBuffers := buffers.filterMap id
  if validBuffers.isEmpty then .error "No audio data recorded"
  else
    let renderedBuffer := renderMix rate validBuffers
    .ok (bufferToWave renderedBuffer renderedBuffer.length)

/-- The external collaborators and ambient values `saveRecording` uses:
vault existence probe and path normalization, the decode capability, the
`AudioContext` sample rate, the formatted timestamp, the resolution of a
device id to its sanitized label, and the collision-loop fuel. -/
structure SaveEnv where
  existsF : String → Bool
  norm : String → String
  decode : List Nat → DecodedTrack
  contextSampleRate : Nat
  timestamp : String
  sourceLabel : String → String
  fuel : Nat

/-- Router `saveRecording()`: in `'single'` output mode merge all tracks and save
one `{prefix}-multitrack-{timestamp}.wav`; otherwise save one file per
non-empty track (`continue` on `chunks.length === 0`) named
`{prefix}-{sourceLabel}-{timestamp}.{format}`.  The returned list holds the
paths actually written (`fileLinks`); a merge failure propagates as the
error. -/
def saveRecording (env : SaveEnv) (s : AudioRecorderSettings)
    (audioChunks : List (List (List Nat))) : Except String (List String) :=
  if s.outputMode == "single" then
    match mergeAudioTracks env.decode env.contextSampleRate audioChunks with
    | .error e => .error e
    | .ok mergedAudio =>
      let fileName := s.filePref ++ "-multitrack-" ++ env.timestamp ++ ".wav"
      match saveAudioFile env.existsF env.norm s.saveFolder mergedAudio
          fileName env.fuel with
      | some p => .ok [p]
      | none => .ok []
  else
    .ok ((List.range audioChunks.length).filterMap fun i =>
      let chunks := audioChunks.getD i []
      if chunks.isEmpty then none
      else
        saveAudioFile env.existsF env.norm s.saveFolder chunks.flatten
          (s.filePref ++ "-" ++ env.sourceLabel (s.trackAudioSources.getD i "")
            ++ "-" ++ env.timestamp ++ "." ++ s.recordingFormat) env.fuel)

theorem validBuffers_eq (decode : List Nat → DecodedTrack)
    (audioChunks : List (List (List Nat))) :
    ((audioChunks.map fun chunks =>
        if chunks.isEmpty then none
        else some (decode chunks.flatten)).filterMap id)
      = ((audioChunks.filter fun chunks => !chunks.isEmpty).map
          fun chunks => decode chunks.flatten) := by
  induction audioChunks with
  | nil => rfl
  | cons c rest ih =>
    by_cases hc : c = []
    · subst hc
      rw [List.map_cons, if_pos List.isEmpty_nil,
        List.filterMap_cons_none rfl, ih,
        List.filter_cons_of_neg (by simp)]
    · have hne : c.isEmpty = false := List.isEmpty_eq_false.mpr hc
      rw [List.map_cons, if_neg (by simp [hne]),
        @List.filterMap_cons_some _ _ id _ _ _ rfl, ih,
        List.filter_cons_of_pos (by simp [hne]), List.map_cons]

/-- Claim C8: A track with zero captured chunks is excluded from single-file
muxing (exactly the non-empty tracks are decoded into the valid buffer
list) and produces no output file in multi-file mode (empty tracks are
skipped, and an empty blob is never written); and when every track is empty
at Stop, the single-file path fails with the `'No audio data recorded'`
error, reported without writing any file. -/
theorem empty_track_handling (env : SaveEnv) (s : AudioRecorderSettings)
    (audioChunks : List (List (List Nat))) :
    ((audioChunks.map fun chunks =>
        if chunks.isEmpty then none
        else some (env.decode chunks.flatten)).filterMap id
      = (audioChunks.filter fun chunks => !chunks.isEmpty).map
          fun chunks => env.decode chunks.flatten) ∧
    ((∀ chunks ∈ audioChunks, chunks.isEmpty = true) →
      mergeAudioTracks env.decode env.contextSampleRate audioChunks
        = .error "No audio data recorded" ∧
      (s.outputMode = "single" →
        saveRecording env s audioChunks = .error "No audio data recorded")) ∧
    (∀ (existsF : String → Bool) (norm : String → String)
      (folder fileName : String) (fuel : Nat),
      saveAudioFile existsF norm folder [] fileName fuel = none) ∧
    (s.outputMode ≠ "single" →
      ∀ links, saveRecording env s audioChunks = .ok links →
      ∀ p ∈ links, ∃ i, (audioChunks.getD i []).isEmpty = false) := by
  refine ⟨validBuffers_eq env.decode audioChunks, ?_, ?_, ?_⟩
  · intro hall
    have hfil : audioChunks.filter (fun chunks => !chunks.isEmpty) = [] := by
      rw [List.filter_eq_nil_iff]
      intro a ha
      simp [hall a ha]
    have hmerge : mergeAudioTracks env.decode env.contextSampleRate audioChunks
        = .error "No audio data recorded" := by
      simp only [mergeAudioTracks]
      rw [validBuffers_eq env.decode audioChunks, hfil]
      simp
    refine ⟨hmerge, fun hm => ?_⟩
    simp only [saveRecording, hm, beq_self_eq_true, if_true, hmerge]
  · intro existsF norm folder fileName fuel
    simp [saveAudioFile]
  · intro hm links hsave p hp
    have hmode : (s.outputMode == "single") = false :=
      beq_eq_false_iff_ne.mpr hm
    simp only [saveRecording, hmode, Bool.false_eq_true, if_false] at hsave
    have hlinks : (List.range audioChunks.length).filterMap (fun i =>
        let chunks := audioChunks.getD i []
        if chunks.isEmpty then none
        else
          saveAudioFile env.existsF env.norm s.saveFolder chunks.flatten
            (AudioRecorderSettings.filePref s ++ "-" ++
              env.sourceLabel (s.trackAudioSources.getD i "")
              ++ "-" ++ env.timestamp ++ "." ++ s.recordingFormat) env.fuel)
        = links := Except.ok.inj hsave
    rw [← hlinks] at hp
    obtain ⟨i, hi, hfi⟩ := List.mem_filterMap.mp hp
    by_cases hempty : (audioChunks.getD i []).isEmpty
    · rw [if_pos hempty] at hfi
      exact absurd hfi (by simp)
    · exact ⟨i, by simpa using hempty⟩

/-- A decode capability returning an empty decoded track (its result is
irrelevant to the witness, which only exercises empty-track handling). -/
def trivialDecode : List Nat → DecodedTrack := fun _ =>
  ⟨0, [], by intro c hc; exact absurd hc (List.not_mem_nil c)⟩

def saveEnv0 : SaveEnv :=
  ⟨fun _ => false, id, trivialDecode, 44100, "T", fun _ => "Device", 4⟩

theorem empty_track_handling_witness :
    mergeAudioTracks saveEnv0.decode saveEnv0.contextSampleRate [[], []]
      = .error "No audio data recorded" ∧
    saveRecording saveEnv0 DEFAULT_SETTINGS [[], []]
      = .error "No audio data recorded" ∧
    saveAudioFile saveEnv0.existsF saveEnv0.norm "" [] "a.wav" 4 = none := by
  have h := empty_track_handling saveEnv0 DEFAULT_SETTINGS [[], []]
  have hall : ∀ chunks ∈ ([[], []] : List (List (List Nat))),
      chunks.isEmpty = true := by decide
  exact ⟨(h.2.1 hall).1, (h.2.1 hall).2 rfl,
    h.2.2.1 saveEnv0.existsF saveEnv0.norm "" "a.wav" 4⟩

end AudioRec
